import Mathlib

/-!
Verification of the ring token-circulation program
(`src/Project2-Chandi-Lamport/program.c`) against its natural-language
specification.

The C program runs a fixed ring of `MAX_PROCESSES = 5` processes.  Each
process reads a membership file, derives its ring neighbours, receives
token messages from its predecessor on a server thread, and forwards a
token to its successor through a single-slot mailbox drained by a client
thread.  The definitions below are a shallow embedding of the relevant
parts of that program: C `int` identifiers and counters are modelled as
`Nat` (the program only ever uses small non-negative values in these
fields), wire messages are modelled as the strings the program builds
with `sprintf`, and the observable side effects of a handler (stderr
lines, `usleep`, the mailbox hand-off) are reified as an explicit
`Effect` list.
-/

/-- `MAX_PROCESSES` from program.c line 13: the fixed ring size. -/
def MAX_PROCESSES : Nat := 5

/-- `MAX_HOSTNAME_LENGTH` from program.c line 12. -/
def MAX_HOSTNAME_LENGTH : Nat := 256

/-- Successor computation from program.c line 401:
`process.successor = (process.proc_id == num_processes) ? 1 : process.proc_id + 1`. -/
def succId (nP id : Nat) : Nat :=
  if id = nP then 1 else id + 1

/-- Predecessor computation from program.c line 400:
`process.predecessor = (process.proc_id == 1) ? num_processes : process.proc_id - 1`. -/
def predId (nP id : Nat) : Nat :=
  if id = 1 then nP else id - 1

theorem succId_mem (nP id : Nat) (h1 : 1 ≤ id) (h2 : id ≤ nP) :
    1 ≤ succId nP id ∧ succId nP id ≤ nP := by
  unfold succId
  split <;> omega

theorem predId_mem (nP id : Nat) (h1 : 1 ≤ id) (h2 : id ≤ nP) :
    1 ≤ predId nP id ∧ predId nP id ≤ nP := by
  unfold predId
  split <;> omega

/-- Closed form of iterated successor: starting from a valid 1-indexed id,
`k` successor steps land on `(id - 1 + k) % N + 1`. -/
theorem succId_iterate (nP id k : Nat) (h1 : 1 ≤ id) (h2 : id ≤ nP) :
    (succId nP)^[k] id = (id - 1 + k) % nP + 1 := by
  induction k with
  | zero =>
    rw [Function.iterate_zero_apply, Nat.add_zero, Nat.mod_eq_of_lt (by omega)]
    omega
  | succ k ih =>
    rw [Function.iterate_succ_apply', ih]
    have hlt : (id - 1 + k) % nP < nP := Nat.mod_lt _ (by omega)
    have hstep : (id - 1 + (k + 1)) % nP = ((id - 1 + k) % nP + 1) % nP := by
      rw [Nat.mod_add_mod]
      rfl
    unfold succId
    by_cases h : (id - 1 + k) % nP + 1 = nP
    · rw [if_pos h, hstep, h, Nat.mod_self]
    · rw [if_neg h]
      have h2' : ((id - 1 + k) % nP + 1) % nP = (id - 1 + k) % nP + 1 :=
        Nat.mod_eq_of_lt (by omega)
      omega

/-- C3: for every ring of `N` processes and every 1-indexed position `i`,
the neighbour formulas of program.c lines 400-401 agree with the spec's
modulo form (stated over 0-indexed positions, shifted back to 1-indexed),
and satisfy the elaborated 1-indexed case law: process 1's predecessor is
`N`, process `N`'s successor is 1, and otherwise `pred = i - 1`,
`succ = i + 1`. -/
theorem ring_neighbor_formulas (N i : Nat) (h1 : 1 ≤ i) (h2 : i ≤ N) :
    predId N i = (i - 1 + (N - 1)) % N + 1 ∧
    succId N i = i % N + 1 ∧
    predId N 1 = N ∧
    succId N N = 1 ∧
    (i ≠ 1 → predId N i = i - 1) ∧
    (i ≠ N → succId N i = i + 1) := by
  refine ⟨?_, ?_, by simp [predId], by simp [succId], ?_, ?_⟩
  · unfold predId
    by_cases h : i = 1
    · rw [if_pos h, h]
      rw [show (1 : Nat) - 1 + (N - 1) = N - 1 by omega, Nat.mod_eq_of_lt (by omega)]
      omega
    · rw [if_neg h, show i - 1 + (N - 1) = (i - 2) + N by omega,
        Nat.add_mod_right, Nat.mod_eq_of_lt (by omega)]
      omega
  · unfold succId
    by_cases h : i = N
    · rw [if_pos h, h, Nat.mod_self]
    · rw [if_neg h, Nat.mod_eq_of_lt (by omega)]
  · intro h
    simp [predId, h]
  · intro h
    simp [succId, h]

/-- C3 witness: the formulas instantiated on the ring of 5 at position 3. -/
theorem ring_neighbor_formulas_witness :
    predId 5 3 = (3 - 1 + (5 - 1)) % 5 + 1 ∧
    succId 5 3 = 3 % 5 + 1 ∧
    predId 5 1 = 5 ∧
    succId 5 5 = 1 ∧
    (3 ≠ 1 → predId 5 3 = 3 - 1) ∧
    (3 ≠ 5 → succId 5 3 = 3 + 1) :=
  ring_neighbor_formulas 5 3 (by decide) (by decide)

/-- C8: ring round-trip — for `N ≥ 3` and every process id `i` in the ring,
`succ (pred i) = i`, and `N` successor steps from `i` return to `i`. -/
theorem ring_round_trip (N i : Nat) (hN : 3 ≤ N) (h1 : 1 ≤ i) (h2 : i ≤ N) :
    succId N (predId N i) = i ∧ (succId N)^[N] i = i := by
  constructor
  · unfold predId succId
    by_cases h : i = 1
    · rw [if_pos h, if_pos rfl]
      omega
    · rw [if_neg h, if_neg (by omega : ¬ i - 1 = N)]
      omega
  · rw [succId_iterate N i N h1 h2,
      show i - 1 + N = (i - 1) + N by rfl, Nat.add_mod_right,
      Nat.mod_eq_of_lt (by omega)]
    omega

/-- C8 witness: round trip on the ring of 5 starting at process 2. -/
theorem ring_round_trip_witness :
    succId 5 (predId 5 2) = 2 ∧ (succId 5)^[5] 2 = 2 :=
  ring_round_trip 5 2 (by decide) (by decide) (by decide)

/-! ## Server-side message handling (program.c lines 97-134)

The server thread receives a fixed-size buffer from the predecessor and
handles it.  A message is recognised as a token when `strstr(msg,
"\"token\"")` finds the quoted tag (line 110); any other payload falls
through the `if` and is silently discarded by the loop.  The observable
actions of one handler invocation are reified as a list of `Effect`s in
program order. -/

/-- One observable side effect of the server's message handler:
a stderr line, the `usleep` call, or the mutex-protected hand-off of a
wire string into `process->strbuf` for the client thread. -/
inductive Effect where
  | log (line : String)
  | sleepUsec (usec : Nat)
  | mailboxPut (wire : String)
deriving DecidableEq

/-- The fields of `ProcessInfo` (program.c lines 22-35) that the message
handler reads or writes.  C `int` fields are modelled as `Nat`; the
program keeps them in `1..5` (ids) and `≥ 0` (the token counter).
`tokDelay` is the `usleep` argument in microseconds. -/
structure ProcState where
  procId : Nat
  state : Nat
  predecessor : Nat
  successor : Nat
  tokDelay : Nat
deriving DecidableEq

/-- The three integer fields of the wire message the program builds with
`sprintf` (program.c lines 122-123). -/
structure TokenMsg where
  procId : Nat
  sender : Nat
  receiver : Nat
deriving DecidableEq

/-- The token message the handler constructs for its successor
(program.c lines 122-123): `proc_id = self`, `sender = self`,
`receiver = successor`. -/
def newTokenMsg (p : ProcState) : TokenMsg :=
  ⟨p.procId, p.procId, p.successor⟩

/-- Wire rendering of a token message, the `sprintf` format of
program.c lines 118-119 and 122-123. -/
def renderTokenMsg (m : TokenMsg) : String :=
  "\x7b\"proc_id\": " ++ toString m.procId ++ ", \"sender\": " ++
    toString m.sender ++ ", \"receiver\": " ++ toString m.receiver ++
    ", \"message\":\"token\"\x7d\n"

/-- The tag `strstr` searches for at program.c line 110: the quoted word
token. -/
def tokenTag : List Char := "\"token\"".toList

/-- Whether `pat` is an initial segment of `s` (character comparison,
as `strncmp` would report a hit at one position). -/
def startsWithPat : List Char → List Char → Bool
  | [], _ => true
  | _ :: _, [] => false
  | a :: ps, b :: ss => a == b && startsWithPat ps ss

/-- Whether `pat` occurs somewhere inside `s`: the successive-position
search `strstr` performs. -/
def strstrHit (pat : List Char) : List Char → Bool
  | [] => startsWithPat pat []
  | c :: rest => startsWithPat pat (c :: rest) || strstrHit pat rest

/-- `strstr(msg, "\"token\"") != NULL` (program.c lines 110-111). -/
def hasTokenTag (msg : String) : Bool :=
  strstrHit tokenTag msg.toList

/-- The `proc_id: %d, state: %d` stderr line of program.c line 115. -/
def statusLine (pid st : Nat) : String :=
  "proc_id: " ++ toString pid ++ ", state: " ++ toString st ++ "\n"

/-- One iteration of the server receive loop on a successfully received
payload `msg` (program.c lines 108-133).  If the payload contains the
quoted token tag: increment `state`, print the status line, print the
received payload (line 120 prints `msg`; the `rec_msg` built at lines
118-119 is dead), sleep `tok_delay` microseconds, and hand the freshly
built successor token to the client thread.  Any other payload leaves the
state untouched and produces no effect. -/
def serverStep (p : ProcState) (msg : String) : ProcState × List Effect :=
  if hasTokenTag msg then
    (⟨p.procId, p.state + 1, p.predecessor, p.successor, p.tokDelay⟩,
      [Effect.log (statusLine p.procId (p.state + 1)),
       Effect.log msg,
       Effect.sleepUsec p.tokDelay,
       Effect.mailboxPut (renderTokenMsg (newTokenMsg p))])
  else
    (p, [])

/-- The wire strings a list of effects hands to the outbound mailbox. -/
def mailboxPuts (es : List Effect) : List String :=
  es.filterMap fun e =>
    match e with
    | Effect.mailboxPut w => some w
    | _ => none

/-- The stderr lines a list of effects prints. -/
def logsOf (es : List Effect) : List String :=
  es.filterMap fun e =>
    match e with
    | Effect.log s => some s
    | _ => none

/-- C2: on every received token message the handler increments the
process's counter by exactly 1, performs the configured `tokDelay` sleep,
and places exactly one new token — with sender this process's id and
receiver its successor's id — into the outbound mailbox. -/
theorem token_step_forwards (p : ProcState) (msg : String)
    (h : hasTokenTag msg = true) :
    (serverStep p msg).1.state = p.state + 1 ∧
    (serverStep p msg).1.procId = p.procId ∧
    (serverStep p msg).1.successor = p.successor ∧
    Effect.sleepUsec p.tokDelay ∈ (serverStep p msg).2 ∧
    mailboxPuts (serverStep p msg).2 = [renderTokenMsg (newTokenMsg p)] ∧
    (newTokenMsg p).sender = p.procId ∧
    (newTokenMsg p).receiver = p.successor := by
  simp [serverStep, h, mailboxPuts, newTokenMsg]

/-- A concrete process state used to instantiate the handler theorems:
process 2 of 5, zero tokens so far, predecessor 1, successor 3, no delay. -/
def sampleProc : ProcState := ⟨2, 0, 1, 3, 0⟩

/-- A concrete inbound token wire message, as process 1 would render it. -/
def sampleTokenWire : String := renderTokenMsg ⟨1, 1, 2⟩

/-- C2 witness: the token handler theorem instantiated at `sampleProc`
receiving `sampleTokenWire`. -/
theorem token_step_forwards_witness :
    (serverStep sampleProc sampleTokenWire).1.state = sampleProc.state + 1 ∧
    (serverStep sampleProc sampleTokenWire).1.procId = sampleProc.procId ∧
    (serverStep sampleProc sampleTokenWire).1.successor = sampleProc.successor ∧
    Effect.sleepUsec sampleProc.tokDelay ∈ (serverStep sampleProc sampleTokenWire).2 ∧
    mailboxPuts (serverStep sampleProc sampleTokenWire).2 =
      [renderTokenMsg (newTokenMsg sampleProc)] ∧
    (newTokenMsg sampleProc).sender = sampleProc.procId ∧
    (newTokenMsg sampleProc).receiver = sampleProc.successor :=
  token_step_forwards sampleProc sampleTokenWire (by rfl)

/-- C9 (amended): a payload without the quoted token tag is dropped
silently — the handler leaves every state field unchanged, emits no
stderr line, performs no sleep, and puts nothing in the mailbox (and, the
step being a total function, it cannot crash the process). -/
theorem non_token_dropped (p : ProcState) (msg : String)
    (h : hasTokenTag msg = false) :
    serverStep p msg = (p, []) := by
  simp [serverStep, h]

/-- An undecodable inbound payload: no token tag anywhere. -/
def garbageWire : String := "%%%not-a-decodable-message%%%"

/-- C9 witness: the drop theorem instantiated on `garbageWire` arriving
at a process with 7 tokens seen so far. -/
theorem non_token_dropped_witness :
    hasTokenTag garbageWire = false ∧
    serverStep ⟨4, 7, 3, 5, 0⟩ garbageWire = (⟨4, 7, 3, 5, 0⟩, []) :=
  ⟨by rfl, non_token_dropped ⟨4, 7, 3, 5, 0⟩ garbageWire (by rfl)⟩

/-- C9 counterexample to the claim as stated: the claim says a malformed
message is dropped *and logged*, but the handler prints nothing at all on
the non-token path — the list of stderr lines it produces is empty. -/
theorem malformed_not_logged :
    hasTokenTag garbageWire = false ∧
    logsOf (serverStep ⟨2, 0, 1, 3, 0⟩ garbageWire).2 = [] := by
  exact ⟨by rfl, by rfl⟩

/-- A marker wire message in the same JSON shape the program uses for
tokens.  The program never defines a marker format; any payload whose
text lacks the quoted token tag behaves this way. -/
def markerWire : String :=
  "\x7b\"proc_id\": 1, \"sender\": 1, \"receiver\": 2, \"message\":\"marker\"\x7d\n"

/-- C5: the program has no snapshot logic at all — `ProcessInfo` carries
no snapshot status, no `localStateSnapshot`, and no `markerReceived`
flag, and the server loop (program.c lines 108-133) matches only the
token tag.  A first marker arriving at an idle process is simply
discarded: the state is unchanged and nothing (in particular no forwarded
marker) is produced, contradicting the specified record-and-forward
transition to `Recording`. -/
theorem marker_ignored_by_server :
    serverStep ⟨2, 3, 1, 3, 0⟩ markerWire = (⟨2, 3, 1, 3, 0⟩, []) := by
  rfl

/-! ## Outbound connect (program.c lines 194-198)

The client thread resolves the successor's address and calls `connect`
exactly once; a failure prints an error and calls `exit(1)`.  The
transport is abstracted as an oracle giving the result of the i-th
connect attempt; the live code consults only attempt 0.  (The constants
`MAX_RETRIES` and `RETRY_DELAY_SECONDS` of program.c lines 17-18 and the
retry loop of lines 243-291 exist only in comments or dead code.) -/

/-- Result of the client's connection establishment, together with the
number of connect attempts that were made. -/
inductive ConnectOutcome where
  | connected (attemptsMade : Nat)
  | fatalExit (attemptsMade : Nat)
deriving DecidableEq

/-- The single-attempt connect of program.c lines 194-198. -/
def clientConnect (attemptSucceeds : Nat → Bool) : ConnectOutcome :=
  if attemptSucceeds 0 then ConnectOutcome.connected 1
  else ConnectOutcome.fatalExit 1

/-- C7: a single failed connect attempt already terminates the process —
the client makes exactly one attempt and exits fatally, with no retry and
no backoff, contrary to the specified bounded-retry behaviour. -/
theorem single_failed_connect_is_fatal :
    clientConnect (fun _ => false) = ConnectOutcome.fatalExit 1 := by
  rfl

/-! ## Hostfile reading and ring setup (program.c lines 354-401)

`main` reads `hostsfile.txt` line by line.  Each line has its trailing
newline stripped; an empty or over-long line is a fatal error (lines
369-372).  Each hostname is stored in order and, when it equals this
process's hostname, `proc_id` is set to the 1-based line number (lines
375-380).  After the loop the count must equal `MAX_PROCESSES` (lines
387-391) and `proc_id` must have been assigned (lines 394-397); only then
are the ring neighbours computed (lines 400-401).  The loop never
compares one hostname against another, so duplicated entries are
accepted. -/

/-- The fatal startup errors of program.c lines 369-372, 387-391 and
394-397. -/
inductive ConfigError where
  | invalidLine
  | wrongCount
  | selfNotFound
deriving DecidableEq

/-- The ring data `main` derives from a valid hostfile. -/
structure RingConfig where
  procId : Nat
  predecessor : Nat
  successor : Nat
deriving DecidableEq

/-- The hostfile read loop of program.c lines 365-384, on the list of
newline-stripped lines.  `lineNum` and `pid` thread the C variables
`line_num` (`= num_processes`) and `process.proc_id` (0 while
unassigned); the result is their final values. -/
def scanLines (hostname : String) :
    List String → Nat → Nat → Except ConfigError (Nat × Nat)
  | [], lineNum, pid => Except.ok (lineNum, pid)
  | l :: ls, lineNum, pid =>
    if l.length = 0 ∨ MAX_HOSTNAME_LENGTH ≤ l.length then
      Except.error ConfigError.invalidLine
    else
      scanLines hostname ls (lineNum + 1)
        (if l = hostname then lineNum + 1 else pid)

/-- Ring-membership setup, program.c lines 364-401: scan the hostfile
lines, check the process count, check that this process found itself,
then compute the ring neighbours. -/
def setupRing (hostname : String) (lines : List String) :
    Except ConfigError RingConfig :=
  match scanLines hostname lines 0 0 with
  | Except.error e => Except.error e
  | Except.ok (numProcesses, pid) =>
    if numProcesses ≠ MAX_PROCESSES then Except.error ConfigError.wrongCount
    else if pid = 0 then Except.error ConfigError.selfNotFound
    else Except.ok ⟨pid, predId numProcesses pid, succId numProcesses pid⟩

theorem scanLines_ok_iff (hostname : String) (lines : List String)
    (ln pid : Nat) :
    (∃ r, scanLines hostname lines ln pid = Except.ok r) ↔
      ∀ l ∈ lines, ¬(l.length = 0 ∨ MAX_HOSTNAME_LENGTH ≤ l.length) := by
  induction lines generalizing ln pid with
  | nil => simp [scanLines]
  | cons l ls ih =>
    by_cases hb : l.length = 0 ∨ MAX_HOSTNAME_LENGTH ≤ l.length
    · simp only [scanLines, if_pos hb]
      constructor
      · rintro ⟨r, hr⟩
        exact absurd hr (by simp)
      · intro hall
        exact absurd hb (hall l (by simp))
    · simp only [scanLines, if_neg hb, ih]
      constructor
      · intro hall l' hl'
        rcases List.mem_cons.mp hl' with h | h
        · subst h
          exact hb
        · exact hall l' h
      · intro hall l' hl'
        exact hall l' (List.mem_cons_of_mem _ hl')

theorem scanLines_count (hostname : String) (lines : List String)
    (ln pid m q : Nat)
    (h : scanLines hostname lines ln pid = Except.ok (m, q)) :
    m = ln + lines.length := by
  induction lines generalizing ln pid with
  | nil =>
    simp only [scanLines, Except.ok.injEq, Prod.mk.injEq] at h
    simp only [List.length_nil]
    omega
  | cons l ls ih =>
    by_cases hb : l.length = 0 ∨ MAX_HOSTNAME_LENGTH ≤ l.length
    · simp [scanLines, if_pos hb] at h
    · simp only [scanLines, if_neg hb] at h
      have := ih _ _ h
      simp only [List.length_cons]
      omega

theorem scanLines_pid (hostname : String) (lines : List String)
    (ln pid m q : Nat)
    (h : scanLines hostname lines ln pid = Except.ok (m, q)) :
    (q = 0 ↔ (pid = 0 ∧ hostname ∉ lines)) := by
  induction lines generalizing ln pid with
  | nil =>
    simp [scanLines] at h
    simp [h.2.symm]
  | cons l ls ih =>
    by_cases hb : l.length = 0 ∨ MAX_HOSTNAME_LENGTH ≤ l.length
    · simp [scanLines, if_pos hb] at h
    · simp only [scanLines, if_neg hb] at h
      have hih := ih _ _ h
      by_cases hl : l = hostname
      · rw [if_pos hl] at hih
        simp only [hih]
        constructor
        · intro hc
          omega
        · rintro ⟨_, habs⟩
          exact absurd (List.mem_cons_self l ls) (by rw [hl] at habs ⊢; exact fun _ => habs (by simp))
      · rw [if_neg hl] at hih
        rw [hih]
        constructor
        · rintro ⟨h0, hmem⟩
          refine ⟨h0, fun hc => ?_⟩
          rcases List.mem_cons.mp hc with hx | hx
          · exact hl hx.symm
          · exact hmem hx
        · rintro ⟨h0, hmem⟩
          exact ⟨h0, fun hc => hmem (List.mem_cons_of_mem _ hc)⟩

/-- C4 counterexample to the claim as stated: the claim says a duplicated
membership entry is rejected, but a hostfile of exactly five non-empty
lines in which the first entry appears twice is accepted — setup succeeds
and derives ring neighbours as usual. -/
theorem duplicate_hostfile_accepted :
    (["alpha", "alpha", "beta", "gamma", "self-host"].count "alpha" = 2) ∧
    setupRing "self-host" ["alpha", "alpha", "beta", "gamma", "self-host"] =
      Except.ok ⟨5, 4, 1⟩ := by
  exact ⟨by rfl, by rfl⟩

/-- C4 (amended): ring setup fails with a fatal configuration error in
each of these cases, and only then — some line is empty (or overflows the
256-byte line buffer), the line count differs from the expected
`MAX_PROCESSES`, or the process's own hostname is absent from the list.
Duplicated entries are not checked and do not cause failure. -/
theorem setup_error_characterization (hostname : String) (lines : List String) :
    (∃ e, setupRing hostname lines = Except.error e) ↔
      ((∃ l ∈ lines, l.length = 0 ∨ MAX_HOSTNAME_LENGTH ≤ l.length) ∨
        lines.length ≠ MAX_PROCESSES ∨ hostname ∉ lines) := by
  unfold setupRing
  cases hscan : scanLines hostname lines 0 0 with
  | error e =>
    have hbad : ∃ l ∈ lines, l.length = 0 ∨ MAX_HOSTNAME_LENGTH ≤ l.length := by
      by_contra hall
      push_neg at hall
      obtain ⟨r, hr⟩ := (scanLines_ok_iff hostname lines 0 0).mpr
        (fun l hl => by
          have hlh := hall l hl
          intro hor
          rcases hor with h0 | hlen
          · exact hlh.1 h0
          · omega)
      rw [hscan] at hr
      exact Except.noConfusion hr
    simp only [iff_true_intro hbad, true_or, iff_true]
    exact ⟨e, rfl⟩
  | ok r =>
    obtain ⟨m, q⟩ := r
    have hgood : ∀ l ∈ lines, ¬(l.length = 0 ∨ MAX_HOSTNAME_LENGTH ≤ l.length) :=
      (scanLines_ok_iff hostname lines 0 0).mp ⟨(m, q), hscan⟩
    have hcount : m = lines.length := by
      have := scanLines_count hostname lines 0 0 m q hscan
      omega
    have hpid : q = 0 ↔ hostname ∉ lines := by
      have := scanLines_pid hostname lines 0 0 m q hscan
      simpa using this
    have hnobad : ¬ ∃ l ∈ lines, l.length = 0 ∨ MAX_HOSTNAME_LENGTH ≤ l.length := by
      rintro ⟨l, hl, hor⟩
      exact hgood l hl hor
    by_cases hm : m ≠ MAX_PROCESSES
    · simp only [if_pos hm]
      constructor
      · intro _
        right
        left
        omega
      · intro _
        exact ⟨ConfigError.wrongCount, rfl⟩
    · simp only [if_neg hm]
      by_cases hq : q = 0
      · simp only [if_pos hq]
        constructor
        · intro _
          right
          right
          exact hpid.mp hq
        · intro _
          exact ⟨ConfigError.selfNotFound, rfl⟩
      · simp only [if_neg hq]
        constructor
        · rintro ⟨e, he⟩
          exact Except.noConfusion he
        · intro hcases
          rcases hcases with hx | hx | hx
          · exact absurd hx hnobad
          · omega
          · exact absurd (hpid.mpr hx) hq

/-! ## Global ring execution (program.c lines 200-213 and 110-133)

A global state of the ring of `n` processes records, per 1-indexed
process id: the `state` counter, the number of tokens that process has
received over its inbound channel, and the number of token messages
currently travelling toward it (sent by its predecessor and not yet
received).  A step is one server-loop iteration at some process: it
consumes one inbound token, increments the counter, and hands exactly one
token to the successor (program.c lines 110-133).  Startup follows main
and the client thread: the configured initiator begins with `state = 1`
(line 346) and its client immediately sends the seed token to its
successor (lines 200-213), so initially exactly one token is on the wire
and nothing has been received yet. -/

/-- A global state of the ring. -/
structure RingGlobal where
  counts : Nat → Nat
  received : Nat → Nat
  inflight : Nat → Nat

/-- The startup state of a ring of `n` processes whose initiator is
`init`: the initiator's counter was seeded to 1, nothing has been
received, and the seed token is on the wire to the initiator's
successor. -/
def initGlobal (n init : Nat) : RingGlobal :=
  ⟨fun id => if id = init then 1 else 0,
   fun _ => 0,
   fun id => if id = succId n init then 1 else 0⟩

/-- Effect of one receive-and-forward at process `id` on the in-flight
token counts: one token disappears from `id`'s inbound channel and one
appears on its successor's. -/
def forwardInflight (n id : Nat) (f : Nat → Nat) : Nat → Nat :=
  Function.update (Function.update f id (f id - 1)) (succId n id)
    (Function.update f id (f id - 1) (succId n id) + 1)

/-- One receive-and-forward step of the ring: process `id` (a valid ring
position holding at least one inbound token) runs the token branch of the
server loop. -/
inductive RingStep (n : Nat) : RingGlobal → RingGlobal → Prop where
  | recv (s : RingGlobal) (id : Nat) (h1 : 1 ≤ id) (h2 : id ≤ n)
      (hin : 1 ≤ s.inflight id) :
      RingStep n s
        ⟨Function.update s.counts id (s.counts id + 1),
         Function.update s.received id (s.received id + 1),
         forwardInflight n id s.inflight⟩

/-- The states reachable from startup by receive-and-forward steps. -/
def RingReachable (n init : Nat) (s : RingGlobal) : Prop :=
  Relation.ReflTransGen (RingStep n) (initGlobal n init) s

/-- Total number of token messages in flight or held across the ring. -/
def tokenTotal (n : Nat) (s : RingGlobal) : Nat :=
  ∑ id in Finset.Icc 1 n, s.inflight id

theorem tokenTotal_step {n : Nat} {s t : RingGlobal} (hst : RingStep n s t) :
    tokenTotal n t = tokenTotal n s := by
  cases hst with
  | recv id h1 h2 hin =>
    have hid : id ∈ Finset.Icc 1 n := Finset.mem_Icc.mpr ⟨h1, h2⟩
    have hsm := succId_mem n id h1 h2
    have hjmem : succId n id ∈ Finset.Icc 1 n := Finset.mem_Icc.mpr ⟨hsm.1, hsm.2⟩
    show (∑ x in Finset.Icc 1 n, forwardInflight n id s.inflight x)
        = ∑ x in Finset.Icc 1 n, s.inflight x
    unfold forwardInflight
    rw [Finset.sum_update_of_mem hjmem]
    have e1 : ∑ x in Finset.Icc 1 n \ {succId n id},
          Function.update s.inflight id (s.inflight id - 1) x
        + Function.update s.inflight id (s.inflight id - 1) (succId n id)
        = ∑ x in Finset.Icc 1 n,
            Function.update s.inflight id (s.inflight id - 1) x := by
      rw [← Finset.erase_eq]
      exact Finset.sum_erase_add _ _ hjmem
    have e2 : ∑ x in Finset.Icc 1 n,
          Function.update s.inflight id (s.inflight id - 1) x
        = (s.inflight id - 1) + ∑ x in Finset.Icc 1 n \ {id}, s.inflight x :=
      Finset.sum_update_of_mem hid _ _
    have e3 : s.inflight id + ∑ x in Finset.Icc 1 n \ {id}, s.inflight x
        = ∑ x in Finset.Icc 1 n, s.inflight x := by
      rw [← Finset.erase_eq]
      exact Finset.add_sum_erase _ _ hid
    omega

/-- C1: token conservation — starting from the seeded startup state,
every state reachable by receive-and-forward steps carries exactly one
token message in flight or held across the whole ring (no duplication, no
loss). -/
theorem token_conservation (n init : Nat) (h1 : 1 ≤ init) (h2 : init ≤ n)
    (s : RingGlobal) (hr : RingReachable n init s) :
    tokenTotal n s = 1 := by
  induction hr with
  | refl =>
    have hsm := succId_mem n init h1 h2
    have hjmem : succId n init ∈ Finset.Icc 1 n :=
      Finset.mem_Icc.mpr ⟨hsm.1, hsm.2⟩
    simp only [tokenTotal, initGlobal]
    rw [Finset.sum_ite_eq' (Finset.Icc 1 n) (succId n init) (fun _ => 1),
      if_pos hjmem]
  | tail hab hbc ih =>
    rw [tokenTotal_step hbc]
    exact ih

/-- C1 witness: the conservation theorem applied to the startup state of
the 5-ring with initiator 1. -/
theorem token_conservation_witness :
    RingReachable 5 1 (initGlobal 5 1) ∧ tokenTotal 5 (initGlobal 5 1) = 1 :=
  ⟨Relation.ReflTransGen.refl,
    token_conservation 5 1 (by decide) (by decide) (initGlobal 5 1)
      Relation.ReflTransGen.refl⟩

/-- C6 counterexample to the claim as stated: in the startup state — a
reachable state — the initiator's counter already reads 1 although it has
received zero token messages (program.c line 346 seeds
`process.state = 1` for the `-x` process), so `circulationCount` does not
equal the number of tokens received. -/
theorem initiator_count_not_received :
    RingReachable 5 1 (initGlobal 5 1) ∧
    (initGlobal 5 1).counts 1 = 1 ∧ (initGlobal 5 1).received 1 = 0 :=
  ⟨Relation.ReflTransGen.refl, rfl, rfl⟩

/-- C6 (amended): in every reachable state, a process's counter equals
the number of tokens it has received, plus one if it is the configured
initiator (whose counter is seeded to 1 before anything is received);
each received token increments the counter exactly once. -/
theorem count_is_received_plus_seed (n init : Nat) (s : RingGlobal)
    (hr : RingReachable n init s) (id : Nat) :
    s.counts id = s.received id + (if id = init then 1 else 0) := by
  induction hr with
  | refl =>
    simp only [initGlobal]
    split <;> simp
  | tail hab hbc ih =>
    cases hbc with
    | recv j hj1 hj2 hin =>
      simp only [Function.update_apply]
      by_cases hji : id = j
      · subst hji
        simp
        omega
      · simp only [if_neg hji]
        exact ih

/-- C6 witness: the amended invariant applied to the startup state of the
5-ring with initiator 1, read at the non-initiator process 2. -/
theorem count_is_received_plus_seed_witness :
    RingReachable 5 1 (initGlobal 5 1) ∧
    (initGlobal 5 1).counts 2 =
      (initGlobal 5 1).received 2 + (if 2 = 1 then 1 else 0) :=
  ⟨Relation.ReflTransGen.refl,
    count_is_received_plus_seed 5 1 (initGlobal 5 1)
      Relation.ReflTransGen.refl 2⟩

/-! ## Hostfile open call (program.c lines 310-312 and 354-362)

`-h` stores its argument in `hostfile_path` (line 311), but the file is
opened as `fopen("hostsfile.txt", "r")` (line 355): the opened name is
the fixed literal, independent of the flag.  `hostfile_path` is consulted
only to format the open-failure message of line 360. -/

/-- The name/mode pair handed to the one `fopen` call of `main`. -/
structure HostfileOpenCall where
  fileName : String
  mode : String
deriving DecidableEq

/-- The `fopen` call of program.c line 355, as a function of the `-h`
argument: its file-name argument is the literal `hostsfile.txt`
regardless of `hostfilePath`. -/
def mainHostfileOpen (hostfilePath : String) : HostfileOpenCall :=
  ⟨"hostsfile.txt", "r"⟩

/-- The open-failure message of program.c line 360, the one place
`hostfile_path` is consumed. -/
def hostfileOpenErrorLine (hostfilePath : String) : String :=
  "Error opening file at " ++ hostfilePath ++ "\n"

/-- C10: for every invocation, the membership list is opened under the
fixed name `hostsfile.txt` (read mode) in the current working directory,
whatever path the `-h` flag supplied; that path surfaces only inside the
open-failure error message, where it appears verbatim. -/
theorem hostsfile_name_fixed (hostfilePath : String) :
    (mainHostfileOpen hostfilePath).fileName = "hostsfile.txt" ∧
    (mainHostfileOpen hostfilePath).mode = "r" ∧
    hostfilePath.toList <:+: (hostfileOpenErrorLine hostfilePath).toList := by
  refine ⟨rfl, rfl, ?_⟩
  refine ⟨("Error opening file at ").toList, ("\n").toList, ?_⟩
  simp [hostfileOpenErrorLine]
